import Mathlib

/-!
Shallow embedding of the Cadrys API service (inventory sync + quoting).

The JavaScript sources embedded here are:
* src/public/routes/quotes.js — quote aggregate engine (recalcQuote and the
  item routes), modelled with exact rationals standing for Prisma.Decimal
  values; decimal.js toDecimalPlaces(2) with its default ROUND_HALF_UP
  becomes the function round2 below.
* src/index.js — resilient fetcher (fetchWithRetry), paginated list fetcher
  (fetchExoProductsList), detail fetcher (fetchExoProductDetails), the
  extra-field extraction utilities (normalizeKey, extractValue,
  getExtraFields, findExtraField, parseMeasure) and the per-record
  derivations inside syncProducts.
* src/unnamed/part_001 — an earlier draft of the server whose syncProducts
  carries the isSyncing in-flight guard.

JavaScript numbers are modelled as rationals (the values the claims touch
are small exact decimals, which double precision represents and prints
faithfully via the shortest-round-trip rule), strings as Lean Strings, and
absent/undefined fields as Option.
-/

/-- Half-up rounding to 2 decimal places, ties away from zero: the behaviour
of decimal.js toDecimalPlaces(2) under its default rounding mode
ROUND_HALF_UP, used by Prisma.Decimal in routes/quotes.js. -/
def round2 (q : ℚ) : ℚ :=
  if 0 ≤ q then ((⌊q * 100 + 1/2⌋ : ℤ) : ℚ) / 100
  else -(((⌊-q * 100 + 1/2⌋ : ℤ) : ℚ) / 100)

theorem round2_of_nonneg (q : ℚ) (h : 0 ≤ q) :
    round2 q = ((⌊q * 100 + 1/2⌋ : ℤ) : ℚ) / 100 := by
  simp [round2, h]

theorem round2_floor_nonneg (q : ℚ) (h : 0 ≤ q) : 0 ≤ ⌊q * 100 + 1/2⌋ := by
  apply Int.floor_nonneg.mpr
  have h1 : 0 ≤ q * 100 := mul_nonneg h (by norm_num)
  linarith

theorem round2_nonneg (q : ℚ) (h : 0 ≤ q) : 0 ≤ round2 q := by
  rw [round2_of_nonneg q h]
  have := round2_floor_nonneg q h
  positivity

/-- Rounding a value that is already an exact number of cents changes
nothing. -/
theorem round2_cent (m : ℤ) (hm : 0 ≤ m) : round2 ((m : ℚ) / 100) = (m : ℚ) / 100 := by
  have h0 : (0 : ℚ) ≤ (m : ℚ) / 100 := by positivity
  rw [round2_of_nonneg _ h0]
  have h1 : (m : ℚ) / 100 * 100 + 1/2 = (m : ℚ) + 1/2 := by
    field_simp
  rw [h1]
  have h2 : ⌊(m : ℚ) + 1/2⌋ = m + ⌊(1 : ℚ)/2⌋ := by
    rw [add_comm, Int.floor_add_int, add_comm]
  have h3 : ⌊(1 : ℚ)/2⌋ = 0 := by
    rw [Int.floor_eq_zero_iff]
    constructor <;> norm_num
  rw [h2, h3, add_zero]

/-- Half-up rounding commutes with adding an exact number of cents
(for nonnegative operands). -/
theorem round2_add_cent (q : ℚ) (m : ℤ) (hq : 0 ≤ q) (hm : 0 ≤ m) :
    round2 (q + (m : ℚ) / 100) = round2 q + (m : ℚ) / 100 := by
  have h1 : (0 : ℚ) ≤ q + (m : ℚ) / 100 := by positivity
  rw [round2_of_nonneg _ h1, round2_of_nonneg _ hq]
  have h2 : (q + (m : ℚ) / 100) * 100 + 1/2 = (q * 100 + 1/2) + (m : ℚ) := by
    field_simp
    ring
  rw [h2, Int.floor_add_int]
  push_cast
  ring

theorem round2_as_cent (q : ℚ) (h : 0 ≤ q) :
    ∃ m : ℤ, 0 ≤ m ∧ round2 q = (m : ℚ) / 100 :=
  ⟨⌊q * 100 + 1/2⌋, round2_floor_nonneg q h, round2_of_nonneg q h⟩

/-- Rounding the raw sum plus an exact-cent tax agrees with rounding the
rounded sum plus the same tax: the bridge between what recalcQuote computes
(total from the unrounded sum) and the spec equation (total from the stored,
rounded subtotal). -/
theorem round2_total_eq (s t : ℚ) (hs : 0 ≤ s) (ht : ∃ m : ℤ, 0 ≤ m ∧ t = (m : ℚ) / 100) :
    round2 (s + t) = round2 (round2 s + t) := by
  obtain ⟨m, hm, rfl⟩ := ht
  obtain ⟨k, hk, hks⟩ := round2_as_cent s hs
  rw [round2_add_cent s m hs hm, hks]
  have h1 : (k : ℚ) / 100 + (m : ℚ) / 100 = ((k + m : ℤ) : ℚ) / 100 := by
    push_cast
    ring
  rw [h1, round2_cent _ (by omega)]

/-- JavaScript string-or-default: the idiom a || b on strings, where the
empty string is falsy. -/
def jsOr (v : Option String) (d : String) : String :=
  match v with
  | some s => if s = "" then d else s
  | none => d

/-! ## Quote aggregate engine (src/public/routes/quotes.js)

QuoteItem mirrors the Prisma QuoteItem row: the monetary snapshot columns
(price, qty, subtotal) plus the natural key stockCode, the row id and the
denormalized display name. The remaining purely presentational snapshot
columns (description, sku, origin, length, width, size) play no part in any
claim and are omitted. QuoteState mirrors the Quote row fields the routes
read or write. -/

structure QuoteItem where
  id : ℕ
  stockCode : String
  name : String
  price : ℚ
  qty : ℤ
  subtotal : ℚ
  deriving Repr, DecidableEq

structure QuoteState where
  items : List QuoteItem
  shareToken : String
  subtotal : ℚ
  tax : ℚ
  total : ℚ
  deriving Repr, DecidableEq

structure Product where
  id : ℕ
  stockCode : String
  name : Option String
  price : ℚ
  deriving Repr, DecidableEq

/-- Rewrite of one line inside recalcQuote: the stored subtotal becomes
price times quantity (quotes.js lines 42-45). -/
def recalcItem (it : QuoteItem) : QuoteItem :=
  { it with subtotal := it.price * (it.qty : ℚ) }

/-- The per-line update both item routes perform: set a new quantity and a
subtotal of unitPrice times that quantity (quotes.js lines 113-115 with the
product's current price, and lines 159-160 with the line's stored price). -/
def bumpItem (unitPrice : ℚ) (newQty : ℤ) (it : QuoteItem) : QuoteItem :=
  { it with qty := newQty, subtotal := unitPrice * (newQty : ℚ) }

/-- Embedding of recalcQuote (quotes.js lines 36-55): every line subtotal is
re-derived as price * qty (the stored line subtotal is overwritten when it
drifted), the raw sum of those products is accumulated, tax is
taxRate * rawSum rounded to 2 places, total is rawSum + tax rounded to 2
places, and the stored quote subtotal is rawSum rounded to 2 places. -/
def recalcQuote (taxRate : ℚ) (q : QuoteState) : QuoteState :=
  let items := q.items.map recalcItem
  let sub := q.items.foldl (fun acc it => acc + it.price * (it.qty : ℚ)) 0
  let tax := round2 (taxRate * sub)
  let total := round2 (sub + tax)
  { q with items := items, subtotal := round2 sub, tax := tax, total := total }

inductive QuoteErr
  | badRequest
  | notFound
  deriving Repr, DecidableEq

/-- Update the first element satisfying p, leaving the rest alone: the
effect of prisma.quoteItem.update keyed by the id found with findFirst. -/
def updateFirst (p : α → Bool) (f : α → α) : List α → List α
  | [] => []
  | x :: xs => if p x then f x :: xs else x :: updateFirst p f xs

/-- Embedding of the add-item route (quotes.js lines 97-144,
router.post on /:id/items). nextId stands for the autoincrement id the
database would assign to a created row; qty is the request body quantity
after parseInt (none when absent, defaulting to 1). -/
def addItem (products : List Product) (taxRate : ℚ) (nextId : ℕ)
    (q : QuoteState) (stockCode : String) (qty : Option ℤ) : Except QuoteErr QuoteState :=
  if stockCode = "" then .error .badRequest
  else
    match products.find? (fun p => p.stockCode == stockCode) with
    | none => .error .notFound
    | some p =>
      let unitPrice := p.price
      let quantity : ℤ := max 1 (qty.getD 1)
      match q.items.find? (fun it => it.stockCode == stockCode) with
      | some existing =>
        let newQty := existing.qty + quantity
        let items := updateFirst (fun it => it.id == existing.id)
          (bumpItem unitPrice newQty) q.items
        .ok (recalcQuote taxRate { q with items := items })
      | none =>
        let newItem : QuoteItem :=
          { id := nextId, stockCode := p.stockCode, name := jsOr p.name "Untitled",
            price := unitPrice, qty := quantity, subtotal := unitPrice * (quantity : ℚ) }
        let items := q.items ++ [newItem]
        .ok (recalcQuote taxRate { q with items := items })

/-- Embedding of the update-item route (quotes.js lines 147-170,
router.patch on /:id/items/:itemId): the quantity is clamped to at least 0,
qty = 0 deletes the line, otherwise qty and subtotal (from the stored line
price) are rewritten; recalculation always follows. -/
def updateItemQty (taxRate : ℚ) (q : QuoteState) (itemId : ℕ) (qty : Option ℤ) :
    Except QuoteErr QuoteState :=
  let qty' : ℤ := max 0 (qty.getD 0)
  match q.items.find? (fun it => it.id == itemId) with
  | none => .error .notFound
  | some item =>
    let items :=
      if qty' = 0 then q.items.filter (fun it => !(it.id == itemId))
      else updateFirst (fun it => it.id == itemId) (bumpItem item.price qty') q.items
    .ok (recalcQuote taxRate { q with items := items })

/-- Embedding of the delete-item route (quotes.js lines 173-185): the row is
deleted and the quote recalculated. Prisma's delete of a missing row raises,
which the route surfaces as a 500 without recalculating, so the successful
path requires the item to exist. -/
def deleteItem (taxRate : ℚ) (q : QuoteState) (itemId : ℕ) : Except QuoteErr QuoteState :=
  if q.items.any (fun it => it.id == itemId) then
    .ok (recalcQuote taxRate { q with items := q.items.filter (fun it => !(it.id == itemId)) })
  else .error .notFound

inductive GetQuoteResult
  | notFound
  | forbidden
  | ok (q : QuoteState)
  deriving Repr, DecidableEq

/-- Embedding of the get-quote route (quotes.js lines 80-94): stored is the
database lookup result for the requested id, token the optional query
parameter (normalised to the empty string when absent, as by
(req.query.token || '').toString()). -/
def getQuote (stored : Option QuoteState) (token : Option String) : GetQuoteResult :=
  let tok := token.getD ""
  match stored with
  | none => .notFound
  | some q => if tok ≠ "" ∧ tok ≠ q.shareToken then .forbidden else .ok q

/-! ## Quote invariants (claim C1) -/

theorem foldl_add_eq_sum {α : Type} (f : α → ℚ) (l : List α) (a : ℚ) :
    l.foldl (fun acc x => acc + f x) a = a + (l.map f).sum := by
  induction l generalizing a with
  | nil => simp
  | cons x xs ih => simp [ih, add_assoc]

/-- Sum of the stored per-line subtotal columns of a quote's items. -/
def storedSubtotalSum (items : List QuoteItem) : ℚ := (items.map (·.subtotal)).sum

/-- The quote-level invariant of the spec: every stored line subtotal is
exactly price times quantity, the stored quote subtotal is the 2-place
rounding of the sum of the stored line subtotals, the stored tax is the
2-place rounding of taxRate times that sum, and the stored total is the
2-place rounding of stored subtotal plus stored tax. -/
def quoteInvariants (taxRate : ℚ) (q : QuoteState) : Prop :=
  (∀ it ∈ q.items, it.subtotal = it.price * (it.qty : ℚ)) ∧
  q.subtotal = round2 (storedSubtotalSum q.items) ∧
  q.tax = round2 (taxRate * storedSubtotalSum q.items) ∧
  q.total = round2 (q.subtotal + q.tax)

theorem recalcQuote_invariants (taxRate : ℚ) (q : QuoteState)
    (htax : 0 ≤ taxRate)
    (hitems : ∀ it ∈ q.items, 0 ≤ it.price ∧ 0 ≤ it.qty) :
    quoteInvariants taxRate (recalcQuote taxRate q) := by
  have hfold : q.items.foldl (fun acc it => acc + it.price * (it.qty : ℚ)) 0
      = (q.items.map fun it => it.price * (it.qty : ℚ)).sum := by
    rw [foldl_add_eq_sum]; ring
  have hS0 : 0 ≤ (q.items.map fun it => it.price * (it.qty : ℚ)).sum := by
    apply List.sum_nonneg
    intro x hx
    obtain ⟨it, hit, rfl⟩ := List.mem_map.mp hx
    exact mul_nonneg (hitems it hit).1 (by exact_mod_cast (hitems it hit).2)
  have hmems : (recalcQuote taxRate q).items = q.items.map recalcItem := rfl
  have hstored : storedSubtotalSum ((recalcQuote taxRate q).items)
      = (q.items.map fun it => it.price * (it.qty : ℚ)).sum := by
    simp only [hmems, storedSubtotalSum, List.map_map]
    rfl
  have hsub : (recalcQuote taxRate q).subtotal
      = round2 (q.items.foldl (fun acc it => acc + it.price * (it.qty : ℚ)) 0) := rfl
  have htaxeq : (recalcQuote taxRate q).tax
      = round2 (taxRate * q.items.foldl (fun acc it => acc + it.price * (it.qty : ℚ)) 0) := rfl
  have htotal : (recalcQuote taxRate q).total
      = round2 (q.items.foldl (fun acc it => acc + it.price * (it.qty : ℚ)) 0
          + round2 (taxRate * q.items.foldl (fun acc it => acc + it.price * (it.qty : ℚ)) 0)) :=
    rfl
  refine ⟨?_, ?_, ?_, ?_⟩
  · intro it hit
    rw [hmems] at hit
    obtain ⟨y, hy, rfl⟩ := List.mem_map.mp hit
    simp [recalcItem]
  · rw [hsub, hstored, hfold]
  · rw [htaxeq, hstored, hfold]
  · rw [htotal, htaxeq, hsub, hfold]
    exact round2_total_eq _ _ hS0 (round2_as_cent _ (mul_nonneg htax hS0))

theorem updateFirst_mem {α : Type} (p : α → Bool) (f : α → α) :
    ∀ (l : List α) (x : α), x ∈ updateFirst p f l → x ∈ l ∨ ∃ y ∈ l, x = f y := by
  intro l
  induction l with
  | nil => intro x hx; simp [updateFirst] at hx
  | cons a as ih =>
    intro x hx
    rw [updateFirst] at hx
    by_cases h : p a
    · rw [if_pos h] at hx
      rcases List.mem_cons.mp hx with h1 | h1
      · exact Or.inr ⟨a, List.mem_cons_self a as, h1⟩
      · exact Or.inl (List.mem_cons_of_mem a h1)
    · rw [if_neg h] at hx
      rcases List.mem_cons.mp hx with h1 | h1
      · exact Or.inl (h1 ▸ List.mem_cons_self a as)
      · rcases ih x h1 with h2 | ⟨y, hy, hxy⟩
        · exact Or.inl (List.mem_cons_of_mem a h2)
        · exact Or.inr ⟨y, List.mem_cons_of_mem a hy, hxy⟩

/-- Claim C1: after every completed item mutation (add, update-quantity,
delete) the stored quote state satisfies the aggregate invariants: each line
subtotal equals price times quantity exactly, the quote subtotal is the sum
of the line subtotals rounded to 2 places, the tax is taxRate times that sum
rounded to 2 places, and the total is the rounding of the stored subtotal
plus the stored tax. Prices, quantities and the tax rate are nonnegative, as
they are for synced products and clamped route inputs. -/
theorem quote_mutation_invariants (products : List Product) (taxRate : ℚ) (q : QuoteState)
    (htax : 0 ≤ taxRate)
    (hprod : ∀ p ∈ products, 0 ≤ p.price)
    (hitems : ∀ it ∈ q.items, 0 ≤ it.price ∧ 0 ≤ it.qty) :
    (∀ nextId stockCode qty q', addItem products taxRate nextId q stockCode qty = .ok q' →
      quoteInvariants taxRate q') ∧
    (∀ itemId qty q', updateItemQty taxRate q itemId qty = .ok q' →
      quoteInvariants taxRate q') ∧
    (∀ itemId q', deleteItem taxRate q itemId = .ok q' →
      quoteInvariants taxRate q') := by
  refine ⟨?_, ?_, ?_⟩
  · intro nextId sc qty q' hok
    simp only [addItem] at hok
    split at hok
    · exact absurd hok (by simp)
    · split at hok
      · exact absurd hok (by simp)
      · rename_i p hp
        split at hok
        · rename_i existing hex
          rw [Except.ok.injEq] at hok
          subst hok
          apply recalcQuote_invariants _ _ htax
          intro it hit
          rcases updateFirst_mem _ _ _ _ hit with h1 | ⟨y, hy, rfl⟩
          · exact hitems it h1
          · have hexmem := List.mem_of_find?_eq_some hex
            have h1 := (hitems _ hexmem).2
            refine ⟨(hitems y hy).1, ?_⟩
            show 0 ≤ existing.qty + max 1 (qty.getD 1)
            have h2 := le_max_left (1 : ℤ) (qty.getD 1)
            omega
        · rw [Except.ok.injEq] at hok
          subst hok
          apply recalcQuote_invariants _ _ htax
          intro it hit
          rcases List.mem_append.mp hit with h1 | h1
          · exact hitems it h1
          · have hpmem := List.mem_of_find?_eq_some hp
            simp only [List.mem_singleton] at h1
            subst h1
            refine ⟨hprod p hpmem, ?_⟩
            show 0 ≤ max 1 (qty.getD 1)
            have h2 := le_max_left (1 : ℤ) (qty.getD 1)
            omega
  · intro itemId qty q' hok
    simp only [updateItemQty] at hok
    split at hok
    · exact absurd hok (by simp)
    · rename_i item hitem
      rw [Except.ok.injEq] at hok
      subst hok
      apply recalcQuote_invariants _ _ htax
      intro it hit
      split at hit
      · exact hitems it (List.mem_of_mem_filter hit)
      · rcases updateFirst_mem _ _ _ _ hit with h1 | ⟨y, hy, rfl⟩
        · exact hitems it h1
        · refine ⟨(hitems y hy).1, ?_⟩
          show 0 ≤ max 0 (qty.getD 0)
          exact le_max_left 0 _
  · intro itemId q' hok
    simp only [deleteItem] at hok
    split at hok
    · rw [Except.ok.injEq] at hok
      subst hok
      apply recalcQuote_invariants _ _ htax
      intro it hit
      exact hitems it (List.mem_of_mem_filter hit)
    · exact absurd hok (by simp)

/-- Concrete instance of quote_mutation_invariants: adding two units of a
price-10 product to an empty quote with a 10 percent tax rate yields the
stored state (subtotal 20, tax 2, total 22) and it satisfies the
invariants. -/
theorem quote_mutation_invariants_witness :
    quoteInvariants (1/10)
      { items := [{ id := 1, stockCode := "X", name := "Rug", price := 10, qty := 2,
                    subtotal := 20 }],
        shareToken := "tok", subtotal := 20, tax := 2, total := 22 } :=
  (quote_mutation_invariants [{ id := 1, stockCode := "X", name := some "Rug", price := 10 }]
      (1/10) { items := [], shareToken := "tok", subtotal := 0, tax := 0, total := 0 }
      (by norm_num) (by intro p hp; simp at hp; subst hp; norm_num) (by simp)).1
    1 "X" (some 2) _ (by
      norm_num [addItem, recalcQuote, recalcItem, bumpItem, jsOr, round2]
      rw [if_neg (by decide : ¬("X" = "")), if_neg (by decide : ¬("Rug" = ""))])

/-! ## Quote access control (claim C6) -/

/-- Claim C6: for a get-quote request, a missing quote yields NotFound
whatever the token; an existing quote with a supplied nonempty token
different from the stored shareToken yields Forbidden; an existing quote
with the token absent or exactly equal to the stored shareToken is
returned. -/
theorem getQuote_spec (stored : Option QuoteState) (token : Option String) :
    (stored = none → getQuote stored token = .notFound) ∧
    (∀ q, stored = some q → token.getD "" ≠ "" → token.getD "" ≠ q.shareToken →
      getQuote stored token = .forbidden) ∧
    (∀ q, stored = some q → (token = none ∨ token.getD "" = q.shareToken) →
      getQuote stored token = .ok q) := by
  refine ⟨?_, ?_, ?_⟩
  · intro h
    subst h
    rfl
  · intro q h h1 h2
    subst h
    simp [getQuote, h1, h2]
  · intro q h h1
    subst h
    rcases h1 with h1 | h1
    · subst h1
      simp [getQuote]
    · simp [getQuote, h1]

/-- Concrete instance of getQuote_spec: a wrong token on an existing quote
is Forbidden, a missing quote is NotFound, and the matching token returns
the quote. -/
theorem getQuote_spec_witness :
    getQuote (some { items := [], shareToken := "s3cret", subtotal := 0, tax := 0, total := 0 })
        (some "wrong") = .forbidden ∧
    getQuote none (some "wrong") = .notFound ∧
    getQuote (some { items := [], shareToken := "s3cret", subtotal := 0, tax := 0, total := 0 })
        (some "s3cret") =
      .ok { items := [], shareToken := "s3cret", subtotal := 0, tax := 0, total := 0 } :=
  ⟨(getQuote_spec _ (some "wrong")).2.1 _ rfl (by decide) (by decide),
   (getQuote_spec none (some "wrong")).1 rfl,
   (getQuote_spec _ (some "s3cret")).2.2 _ rfl (Or.inr (by decide))⟩

/-! ## Add-item behaviour (claim C3) -/

theorem find?_decomp {α : Type} (p : α → Bool) :
    ∀ (l : List α) (x : α), l.find? p = some x →
      p x = true ∧ ∃ l1 l2, l = l1 ++ x :: l2 ∧ ∀ y ∈ l1, p y = false := by
  intro l
  induction l with
  | nil => intro x hx; simp at hx
  | cons a as ih =>
    intro x hx
    by_cases h : p a
    · rw [List.find?_cons_of_pos _ h] at hx
      injection hx with hx
      subst hx
      exact ⟨h, [], as, rfl, by simp⟩
    · rw [List.find?_cons_of_neg _ h] at hx
      obtain ⟨hp, l1, l2, rfl, hl1⟩ := ih x hx
      refine ⟨hp, a :: l1, l2, rfl, ?_⟩
      intro y hy
      rcases List.mem_cons.mp hy with rfl | hy2
      · exact Bool.eq_false_iff.mpr h
      · exact hl1 y hy2

theorem updateFirst_append {α : Type} (p : α → Bool) (f : α → α) (x : α) (l2 : List α) :
    ∀ l1 : List α, (∀ y ∈ l1, p y = false) → p x = true →
      updateFirst p f (l1 ++ x :: l2) = l1 ++ f x :: l2 := by
  intro l1
  induction l1 with
  | nil => intro _ hx; simp [updateFirst, hx]
  | cons a as ih =>
    intro h1 hx
    have ha : p a = false := h1 a (by simp)
    simp only [List.cons_append, updateFirst, ha]
    simp [ih (fun y hy => h1 y (by simp [hy])) hx]

theorem countP_map_pres {α : Type} (p : α → Bool) (g : α → α)
    (hg : ∀ x, p (g x) = p x) : ∀ l : List α, (l.map g).countP p = l.countP p := by
  intro l
  induction l with
  | nil => rfl
  | cons a as ih => simp [List.countP_cons, ih, hg]


/-- Claim C3: behaviour of the add-item route. With an unknown stockCode the
result is NotFound and no quote state is produced. With a line already
carrying the stockCode, the completed operation (update plus recalculation)
leaves exactly one line with that stockCode, whose quantity grew by the
clamped requested amount and whose subtotal is its stored snapshot unit
price times the new quantity. Otherwise a new line is appended as a snapshot
of the current product price. The stored quote is assumed well-formed: line
ids are pairwise distinct and at most one line carries the stockCode. -/
theorem addItem_route_spec (products : List Product) (taxRate : ℚ) (nextId : ℕ)
    (q : QuoteState) (sc : String) (qty : Option ℤ)
    (hsc : sc ≠ "")
    (huniq : q.items.countP (fun it => it.stockCode == sc) ≤ 1)
    (hids : q.items.Pairwise (fun a b => a.id ≠ b.id)) :
    (products.find? (fun p => p.stockCode == sc) = none →
      addItem products taxRate nextId q sc qty = .error .notFound) ∧
    (∀ p ex, products.find? (fun p => p.stockCode == sc) = some p →
      q.items.find? (fun it => it.stockCode == sc) = some ex →
      ∃ q', addItem products taxRate nextId q sc qty = .ok q' ∧
        q'.items.countP (fun it => it.stockCode == sc) = 1 ∧
        ∀ it ∈ q'.items, it.stockCode = sc →
          it.price = ex.price ∧ it.qty = ex.qty + max 1 (qty.getD 1) ∧
          it.subtotal = ex.price * ((ex.qty + max 1 (qty.getD 1) : ℤ) : ℚ)) ∧
    (∀ p, products.find? (fun p => p.stockCode == sc) = some p →
      q.items.find? (fun it => it.stockCode == sc) = none →
      ∃ q', addItem products taxRate nextId q sc qty = .ok q' ∧
        q'.items = q.items.map recalcItem
          ++ [{ id := nextId, stockCode := p.stockCode, name := jsOr p.name "Untitled",
                price := p.price, qty := max 1 (qty.getD 1),
                subtotal := p.price * ((max 1 (qty.getD 1) : ℤ) : ℚ) }]) := by
  refine ⟨?_, ?_, ?_⟩
  · intro hnone
    simp only [addItem, if_neg hsc, hnone]
  · intro p ex hp hex
    obtain ⟨hpsc, l1, l2, hitems, hl1⟩ := find?_decomp _ q.items ex hex
    have hc1 : l1.countP (fun it => it.stockCode == sc) = 0 ∧
        l2.countP (fun it => it.stockCode == sc) = 0 := by
      rw [hitems, List.countP_append, List.countP_cons] at huniq
      simp only [hpsc, if_true] at huniq
      omega
    have hl1id : ∀ y ∈ l1, ((fun it => it.id == ex.id) y) = false := by
      intro y hy
      have hysc := hl1 y hy
      simp only [beq_eq_false_iff_ne, ne_eq]
      intro hyid
      have hyne : y ≠ ex := by
        intro he
        rw [he] at hysc
        simp only [hpsc] at hysc
        exact absurd hysc (by simp)
      have hymem : y ∈ q.items := by
        rw [hitems]; exact List.mem_append_left _ hy
      have hexmem : ex ∈ q.items := by
        rw [hitems]; exact List.mem_append_right _ (List.mem_cons_self _ _)
      have hsym : Symmetric (fun a b : QuoteItem => a.id ≠ b.id) :=
        fun a b h he => h he.symm
      exact (List.Pairwise.forall hsym hids hymem hexmem hyne) hyid
    have hupd : updateFirst (fun it => it.id == ex.id)
        (bumpItem p.price (ex.qty + max 1 (qty.getD 1))) q.items
        = l1 ++ bumpItem p.price (ex.qty + max 1 (qty.getD 1)) ex :: l2 := by
      conv_lhs => rw [hitems]
      exact updateFirst_append _ _ _ l2 l1 hl1id (by simp)
    have heval : addItem products taxRate nextId q sc qty
        = .ok (recalcQuote taxRate
            { q with items := l1 ++ bumpItem p.price (ex.qty + max 1 (qty.getD 1)) ex :: l2 }) := by
      simp only [addItem, if_neg hsc, hp, hex]
      rw [hupd]
    have hqitems : (recalcQuote taxRate
        { q with items := l1 ++ bumpItem p.price (ex.qty + max 1 (qty.getD 1)) ex :: l2 }).items
        = l1.map recalcItem
          ++ recalcItem (bumpItem p.price (ex.qty + max 1 (qty.getD 1)) ex)
          :: l2.map recalcItem := by
      simp [recalcQuote]
    refine ⟨_, heval, ?_, ?_⟩
    · rw [hqitems, List.countP_append, List.countP_cons]
      rw [countP_map_pres (fun it => it.stockCode == sc) recalcItem (fun x => rfl) l1,
        countP_map_pres (fun it => it.stockCode == sc) recalcItem (fun x => rfl) l2]
      rw [hc1.1, hc1.2]
      have hb : ((recalcItem (bumpItem p.price (ex.qty + max 1 (qty.getD 1)) ex)).stockCode
          == sc) = true := hpsc
      simp [hb]
    · intro it hit hitsc
      rw [hqitems] at hit
      rcases List.mem_append.mp hit with hit1 | hit2
      · obtain ⟨y, hy, rfl⟩ := List.mem_map.mp hit1
        have hy0 := List.countP_eq_zero.mp hc1.1 y hy
        exact absurd (by simpa [recalcItem] using hitsc) (by simpa using hy0)
      · rcases List.mem_cons.mp hit2 with heq | hit3
        · subst heq
          exact ⟨rfl, rfl, rfl⟩
        · obtain ⟨y, hy, rfl⟩ := List.mem_map.mp hit3
          have hy0 := List.countP_eq_zero.mp hc1.2 y hy
          exact absurd (by simpa [recalcItem] using hitsc) (by simpa using hy0)
  · intro p hp hexn
    have heval : addItem products taxRate nextId q sc qty
        = .ok (recalcQuote taxRate
            { q with items := q.items ++
                [{ id := nextId, stockCode := p.stockCode, name := jsOr p.name "Untitled",
                   price := p.price, qty := max 1 (qty.getD 1),
                   subtotal := p.price * ((max 1 (qty.getD 1) : ℤ) : ℚ) }] }) := by
      simp only [addItem, if_neg hsc, hp, hexn]
    exact ⟨_, heval, by simp [recalcQuote, recalcItem]⟩

/-- Concrete instance of addItem_route_spec: adding stockCode X with
quantity 3 to a quote already holding an X line of quantity 2 at unit price
10 increments that line to quantity 5 and subtotal 50, leaving exactly one
X line. -/
theorem addItem_route_spec_witness :
    addItem [{ id := 9, stockCode := "X", name := some "Rug", price := 10 }] 0 77
      { items := [{ id := 5, stockCode := "X", name := "Rug", price := 10, qty := 2,
                    subtotal := 20 }],
        shareToken := "tok", subtotal := 20, tax := 0, total := 20 } "X" (some 3)
      = .ok { items := [{ id := 5, stockCode := "X", name := "Rug", price := 10, qty := 5,
                          subtotal := 50 }],
              shareToken := "tok", subtotal := 50, tax := 0, total := 50 } ∧
    ({ items := [{ id := 5, stockCode := "X", name := "Rug", price := 10, qty := 5,
                   subtotal := 50 }],
       shareToken := "tok", subtotal := 50, tax := 0, total := 50 } : QuoteState).items.countP
      (fun it => it.stockCode == "X") = 1 := by
  have heval : addItem [{ id := 9, stockCode := "X", name := some "Rug", price := 10 }] 0 77
      { items := [{ id := 5, stockCode := "X", name := "Rug", price := 10, qty := 2,
                    subtotal := 20 }],
        shareToken := "tok", subtotal := 20, tax := 0, total := 20 } "X" (some 3)
      = .ok { items := [{ id := 5, stockCode := "X", name := "Rug", price := 10, qty := 5,
                          subtotal := 50 }],
              shareToken := "tok", subtotal := 50, tax := 0, total := 50 } := by
    norm_num [addItem, recalcQuote, recalcItem, bumpItem, jsOr, round2, updateFirst]
    intro h
    exact absurd h (by decide)
  obtain ⟨q', h1, h2, h3⟩ :=
    (addItem_route_spec [{ id := 9, stockCode := "X", name := some "Rug", price := 10 }] 0 77
      { items := [{ id := 5, stockCode := "X", name := "Rug", price := 10, qty := 2,
                    subtotal := 20 }],
        shareToken := "tok", subtotal := 20, tax := 0, total := 20 } "X" (some 3)
      (by decide) (by decide) (by simp)).2.1
      { id := 9, stockCode := "X", name := some "Rug", price := 10 }
      { id := 5, stockCode := "X", name := "Rug", price := 10, qty := 2, subtotal := 20 }
      (by rw [List.find?_cons_of_pos _ (by decide)])
      (by rw [List.find?_cons_of_pos _ (by decide)])
  have hq : Except.ok q'
      = Except.ok ({ items := [{ id := 5, stockCode := "X", name := "Rug", price := 10,
                                 qty := 5, subtotal := 50 }],
                     shareToken := "tok", subtotal := 50, tax := 0, total := 50 } : QuoteState) :=
    h1.symm.trans heval
  injection hq with hq'
  subst hq'
  exact ⟨heval, h2⟩

/-! ## Resilient HTTP fetcher (src/index.js fetchWithRetry, lines 63-86) -/

/-- Connection-level error codes distinguished by fetchWithRetry's transient
test; other stands for every code outside the retried set. -/
inductive ErrCode
  | etimedout
  | econnreset
  | eaiAgain
  | econnaborted
  | other
  deriving Repr, DecidableEq

/-- A failed axios attempt: an HTTP response with a status code, or a
connection-level error (err.response absent) carrying an error code. -/
inductive FetchErr
  | http (status : ℕ)
  | conn (code : ErrCode)
  deriving Repr, DecidableEq

/-- Outcome of one attempt against the upstream. -/
inductive Attempt (α : Type)
  | success (data : α)
  | failure (e : FetchErr)
  deriving Repr, DecidableEq

/-- The transient classification of src/index.js lines 78-80: HTTP status at
least 500, or one of the four listed connection codes. (A 404 never reaches
this test: it is converted to the end marker first.) -/
def transient : FetchErr → Bool
  | .http s => 500 ≤ s
  | .conn c => c == .etimedout || c == .econnreset || c == .eaiAgain || c == .econnaborted

/-- Result of fetchWithRetry: a response body, the distinguished
end-of-pages marker object returned on any 404, a thrown error, or
undefined (what the JS function returns when the loop body never runs,
i.e. retries = 0). -/
inductive FetchResult (α : Type)
  | ok (data : α)
  | endMarker
  | thrown (e : FetchErr)
  | undef
  deriving Repr, DecidableEq

/-- The retry loop of fetchWithRetry from a given attempt number: o gives
each attempt's outcome, retries and backoff are the bounds. Returns the
result with the list of backoff waits performed (backoff * attempt before
the next attempt). The fuel argument dominates the remaining loop
iterations; the wrapper below supplies retries, which is exact. -/
def fetchWithRetryFrom (o : ℕ → Attempt α) (retries backoff : ℕ) :
    ℕ → ℕ → FetchResult α × List ℕ
  | _, 0 => (.undef, [])
  | attempt, fuel + 1 =>
    if attempt > retries then (.undef, [])
    else
      match o attempt with
      | .success d => (.ok d, [])
      | .failure e =>
        if e = .http 404 then (.endMarker, [])
        else if transient e = false ∨ attempt = retries then (.thrown e, [])
        else
          let r := fetchWithRetryFrom o retries backoff (attempt + 1) fuel
          (r.1, backoff * attempt :: r.2)

/-- Embedding of fetchWithRetry (src/index.js lines 63-86), starting at
attempt 1. -/
def fetchWithRetry (o : ℕ → Attempt α) (retries backoff : ℕ) : FetchResult α × List ℕ :=
  fetchWithRetryFrom o retries backoff 1 retries

/-- One transient-failure step of the retry loop: the result is the result
from the next attempt, with the wait backoff * attempt recorded first. -/
theorem fetchWithRetryFrom_step (o : ℕ → Attempt α) (R B a fuel : ℕ)
    (haR : a < R) (e : FetchErr) (he : o a = .failure e) (ht : transient e = true) :
    fetchWithRetryFrom o R B a (fuel + 1)
      = ((fetchWithRetryFrom o R B (a + 1) fuel).1,
         B * a :: (fetchWithRetryFrom o R B (a + 1) fuel).2) := by
  have h404 : ¬(e = FetchErr.http 404) := by
    intro h
    subst h
    simp [transient] at ht
  rw [fetchWithRetryFrom, if_neg (by omega : ¬a > R), he]
  show (if e = FetchErr.http 404 then ((FetchResult.endMarker : FetchResult α), ([] : List ℕ))
      else if transient e = false ∨ a = R then (FetchResult.thrown e, [])
      else ((fetchWithRetryFrom o R B (a + 1) fuel).1,
            B * a :: (fetchWithRetryFrom o R B (a + 1) fuel).2))
    = ((fetchWithRetryFrom o R B (a + 1) fuel).1,
       B * a :: (fetchWithRetryFrom o R B (a + 1) fuel).2)
  rw [if_neg h404, if_neg (by simp [ht]; omega)]

/-- Reaching attempt k: when attempts 1..k-1 all failed transiently, the
whole call reduces to the loop at attempt k, the waits B*1, ..., B*(k-1)
having been performed. -/
theorem fetchWithRetry_reach (o : ℕ → Attempt α) (R B : ℕ) (k : ℕ)
    (hk1 : 1 ≤ k) (hkR : k ≤ R)
    (hpre : ∀ i, 1 ≤ i → i < k → ∃ e, o i = .failure e ∧ transient e = true) :
    fetchWithRetry o R B
      = ((fetchWithRetryFrom o R B k (R + 1 - k)).1,
         ((List.range (k - 1)).map fun j => B * (j + 1))
           ++ (fetchWithRetryFrom o R B k (R + 1 - k)).2) := by
  induction k, hk1 using Nat.le_induction with
  | base =>
    have : R + 1 - 1 = R := by omega
    rw [this]
    simp [fetchWithRetry]
  | succ n hn ih =>
    have hnR : n ≤ R := by omega
    have ihh := ih hnR (fun i h1 h2 => hpre i h1 (by omega))
    obtain ⟨e, he, ht⟩ := hpre n hn (by omega)
    have hfuel : R + 1 - n = (R + 1 - (n + 1)) + 1 := by omega
    rw [hfuel] at ihh
    rw [fetchWithRetryFrom_step o R B n (R + 1 - (n + 1)) (by omega) e he ht] at ihh
    rw [ihh]
    have hrange : List.range (n + 1 - 1) = List.range (n - 1) ++ [n - 1] := by
      have : n + 1 - 1 = (n - 1) + 1 := by omega
      rw [this, List.range_succ]
    rw [hrange, List.map_append]
    simp only [List.map_cons, List.map_nil]
    have : B * ((n - 1) + 1) = B * n := by
      congr 1
      omega
    rw [this]
    simp

/-- One unfolding of the retry loop when the attempt bound is not yet
exceeded. -/
theorem fetchWithRetryFrom_at (o : ℕ → Attempt α) (R B a fuel : ℕ) (haR : ¬a > R) :
    fetchWithRetryFrom o R B a (fuel + 1)
      = match o a with
        | .success d => (.ok d, [])
        | .failure e =>
          if e = .http 404 then (.endMarker, [])
          else if transient e = false ∨ a = R then (.thrown e, [])
          else ((fetchWithRetryFrom o R B (a + 1) fuel).1,
                B * a :: (fetchWithRetryFrom o R B (a + 1) fuel).2) := by
  rw [fetchWithRetryFrom, if_neg haR]

/-- Claim C5 (amended): retry classification and backoff of fetchWithRetry.
When attempts 1..k-1 all failed transiently — each transient failure before
the bound is retried after a wait of backoff * attempt, giving the waits
B*1, ..., B*(k-1) — the call is decided at attempt k (1 ≤ k ≤ R): a success
returns the body; a non-transient failure other than HTTP 404 propagates
immediately; an HTTP 404, though non-transient, does not propagate but
returns the end-of-pages marker; and a transient failure at the retry bound
k = R propagates. Transient means HTTP status at least 500 or a connection
code among ETIMEDOUT, ECONNRESET, EAI_AGAIN, ECONNABORTED. -/
theorem fetchWithRetry_spec (o : ℕ → Attempt α) (R B k : ℕ)
    (hk1 : 1 ≤ k) (hkR : k ≤ R)
    (hpre : ∀ i, 1 ≤ i → i < k → ∃ e, o i = .failure e ∧ transient e = true) :
    (∀ d, o k = .success d →
      fetchWithRetry o R B = (.ok d, (List.range (k - 1)).map fun j => B * (j + 1))) ∧
    (∀ e, o k = .failure e → transient e = false → e ≠ .http 404 →
      fetchWithRetry o R B = (.thrown e, (List.range (k - 1)).map fun j => B * (j + 1))) ∧
    (o k = .failure (.http 404) →
      fetchWithRetry o R B = (.endMarker, (List.range (k - 1)).map fun j => B * (j + 1))) ∧
    (∀ e, o k = .failure e → transient e = true → k = R →
      fetchWithRetry o R B = (.thrown e, (List.range (k - 1)).map fun j => B * (j + 1))) := by
  have hreach := fetchWithRetry_reach o R B k hk1 hkR hpre
  have hfuel : R + 1 - k = (R - k) + 1 := by omega
  rw [hfuel] at hreach
  rw [fetchWithRetryFrom_at o R B k (R - k) (by omega)] at hreach
  refine ⟨?_, ?_, ?_, ?_⟩
  · intro d hd
    rw [hd] at hreach
    simpa using hreach
  · intro e he hnt h404
    rw [he] at hreach
    simp only [if_neg h404] at hreach
    rw [if_pos (Or.inl hnt)] at hreach
    simpa using hreach
  · intro he
    rw [he] at hreach
    simpa using hreach
  · intro e he ht hkR'
    rw [he] at hreach
    have h404 : ¬(e = FetchErr.http 404) := by
      intro h
      subst h
      simp [transient] at ht
    simp only [if_neg h404] at hreach
    rw [if_pos (Or.inr hkR')] at hreach
    simpa using hreach

/-- Counterexample to claim C5 as frozen: an HTTP 404 is a non-transient
failure, yet it does not propagate to the caller — fetchWithRetry swallows
it and returns the end-of-pages marker instead of throwing. -/
theorem fetchWithRetry_404_counterexample :
    transient (.http 404) = false ∧
    fetchWithRetry ((fun _ => Attempt.failure (FetchErr.http 404)) : ℕ → Attempt Unit) 6 2000
      = (.endMarker, []) ∧
    (fetchWithRetry ((fun _ => Attempt.failure (FetchErr.http 404)) : ℕ → Attempt Unit)
        6 2000).1 ≠ .thrown (.http 404) := by
  decide

/-- Concrete instance of fetchWithRetry_spec: attempt 1 fails with a
transient HTTP 503, attempt 2 succeeds; the call returns the body with the
single linear backoff wait 10 * 1. -/
theorem fetchWithRetry_spec_witness :
    fetchWithRetry (fun i => if i = 1 then Attempt.failure (.http 503) else .success 42) 3 10
      = (.ok 42, [10]) := by
  have h := (fetchWithRetry_spec
      (fun i => if i = 1 then Attempt.failure (.http 503) else .success (42 : ℕ)) 3 10 2
      (by norm_num) (by norm_num)
      (fun i h1 h2 => by
        have hi : i = 1 := by omega
        subst hi
        exact ⟨.http 503, by decide, by decide⟩)).1 42 (by decide)
  simpa using h

/-! ## Paginated list fetcher (src/index.js fetchExoProductsList, lines 177-220) -/

/-- Shape of a list-page response body: a raw array, an items-wrapped
object, or an unrecognized shape (the case logged as unexpected and treated
as an empty page). -/
inductive ListBody (α : Type)
  | arr (items : List α)
  | wrapped (items : List α)
  | malformed
  deriving Repr, DecidableEq

/-- The step-down inner loop over page sizes for one page (src/index.js
lines 186-212): an end marker, a recognized body, or an unrecognized body
each settle the page (the latter two as their items or as zero items); a
thrown 504 steps down to the next size; any other thrown error bubbles up.
The ok none result models pageData still null after every size 504-failed,
which the outer loop treats like an empty page. An undefined body (retries
exhausted at 0) fails every shape test and also counts as zero items. -/
def fetchPageSteps (up : ℕ → ℕ → FetchResult (ListBody α)) (page : ℕ) :
    List ℕ → Except FetchErr (Option (List α))
  | [] => .ok none
  | size :: rest =>
    match up page size with
    | .endMarker => .ok (some [])
    | .ok (.arr items) => .ok (some items)
    | .ok (.wrapped items) => .ok (some items)
    | .ok .malformed => .ok (some [])
    | .undef => .ok (some [])
    | .thrown e => if e = .http 504 then fetchPageSteps up page rest else .error e

/-- Result of the whole paginated fetch: the accumulated items, a bubbled-up
error, or fuel exhaustion (the model's stand-in for a loop that has not yet
terminated; every claim supplies enough fuel). -/
inductive ListFetch (α : Type)
  | ok (items : List α)
  | err (e : FetchErr)
  | diverged
  deriving Repr, DecidableEq

/-- The outer while-true loop (src/index.js lines 182-218): a page settles
via the step-down loop; a null or empty pageData breaks with the
accumulated items, otherwise the items are appended and the next page is
fetched. -/
def fetchAllPagesGo (up : ℕ → ℕ → FetchResult (ListBody α)) :
    ℕ → ℕ → List α → ListFetch α
  | 0, _, _ => .diverged
  | fuel + 1, page, acc =>
    match fetchPageSteps up page [50, 25, 10, 5] with
    | .error e => .err e
    | .ok none => .ok acc
    | .ok (some []) => .ok acc
    | .ok (some (x :: xs)) => fetchAllPagesGo up fuel (page + 1) (acc ++ x :: xs)

/-- Embedding of fetchExoProductsList: page numbering starts at 1 with an
empty accumulator and the page-size ladder 50, 25, 10, 5. -/
def fetchExoProductsList (up : ℕ → ℕ → FetchResult (ListBody α)) (fuel : ℕ) : ListFetch α :=
  fetchAllPagesGo up fuel 1 []

/-- The per-page fetch the list fetcher performs: fetchWithRetry with the
default bounds (retries 6, base backoff 2000 ms) on the attempt outcomes
for that page and size. -/
def pageFetch (att : ℕ → ℕ → ℕ → Attempt (ListBody α)) (page size : ℕ) :
    FetchResult (ListBody α) :=
  (fetchWithRetry (att page size) 6 2000).1

/-- Splitting off the first page of a range of pages. -/
theorem range_flatMap_succ {α : Type} (f : ℕ → List α) (n : ℕ) :
    (List.range (n + 1)).flatMap f = f 0 ++ (List.range n).flatMap fun j => f (j + 1) := by
  induction n with
  | zero =>
    rw [List.range_succ]
    simp
  | succ m ih =>
    rw [List.range_succ, List.flatMap_append, ih, List.range_succ, List.flatMap_append]
    simp [List.append_assoc]

/-- Running the outer loop across k filled pages up to a page that settles
as empty (or null): the result is the accumulator followed by the items of
the k pages in order. -/
theorem fetchAllPagesGo_run (up : ℕ → ℕ → FetchResult (ListBody α)) (items : ℕ → List α) :
    ∀ (k page fuel : ℕ) (acc : List α),
      k < fuel →
      (∀ j, j < k → fetchPageSteps up (page + j) [50, 25, 10, 5]
          = .ok (some (items (page + j))) ∧ items (page + j) ≠ []) →
      (fetchPageSteps up (page + k) [50, 25, 10, 5] = .ok (some [])
        ∨ fetchPageSteps up (page + k) [50, 25, 10, 5] = .ok none) →
      fetchAllPagesGo up fuel page acc
        = .ok (acc ++ (List.range k).flatMap fun j => items (page + j)) := by
  intro k
  induction k with
  | zero =>
    intro page fuel acc hf hjs hterm
    obtain ⟨fuel', rfl⟩ : ∃ fuel', fuel = fuel' + 1 := ⟨fuel - 1, by omega⟩
    rw [fetchAllPagesGo]
    have h0 : page + 0 = page := by omega
    rw [h0] at hterm
    rcases hterm with h | h <;> rw [h] <;> simp
  | succ n ih =>
    intro page fuel acc hf hjs hterm
    obtain ⟨fuel', rfl⟩ : ∃ fuel', fuel = fuel' + 1 := ⟨fuel - 1, by omega⟩
    obtain ⟨h0, hne⟩ := hjs 0 (by omega)
    rw [Nat.add_zero] at h0 hne
    obtain ⟨x, xs, hxs⟩ : ∃ x xs, items page = x :: xs := by
      cases hh : items page with
      | nil => exact absurd hh hne
      | cons a as => exact ⟨a, as, rfl⟩
    rw [fetchAllPagesGo, h0, hxs]
    show fetchAllPagesGo up fuel' (page + 1) (acc ++ x :: xs)
      = ListFetch.ok (acc ++ (List.range (n + 1)).flatMap fun j => items (page + j))
    have ih' := ih (page + 1) fuel' (acc ++ x :: xs) (by omega)
      (fun j hj => by
        have := hjs (j + 1) (by omega)
        rwa [show page + (j + 1) = page + 1 + j from by omega] at this)
      (by rwa [show page + 1 + n = page + (n + 1) from by omega])
    rw [ih']
    have hfe : (fun j => items (page + 1 + j)) = fun j => items (page + (j + 1)) :=
      funext fun j => by
        rw [show page + 1 + j = page + (j + 1) from by omega]
    rw [hfe, ← hxs, range_flatMap_succ (fun j => items (page + j)) n]
    rw [Nat.add_zero]
    simp [List.append_assoc]

/-- First unfolding of fetchWithRetry, with the retry bound in successor
form so the fuel pattern is visible. -/
theorem fetchWithRetry_first (o : ℕ → Attempt α) (R' B : ℕ) :
    fetchWithRetry o (R' + 1) B
      = match o 1 with
        | .success d => (.ok d, [])
        | .failure e =>
          if e = .http 404 then (.endMarker, [])
          else if transient e = false ∨ 1 = R' + 1 then (.thrown e, [])
          else ((fetchWithRetryFrom o (R' + 1) B 2 R').1,
                B * 1 :: (fetchWithRetryFrom o (R' + 1) B 2 R').2) := by
  unfold fetchWithRetry
  exact fetchWithRetryFrom_at o (R' + 1) B 1 R' (by omega)

/-- Core of claims C4 and C7: when pages 1..P-1 come back as nonempty raw
arrays on the first attempt at size 50 and page P settles as a zero-item
page, the whole fetch returns exactly the items of pages 1..P-1 in order
and never fetches past page P. -/
theorem pagination_terminates_at (att : ℕ → ℕ → ℕ → Attempt (ListBody α)) (P : ℕ)
    (items : ℕ → List α) (fuel : ℕ)
    (hP : 1 ≤ P) (hfuel : P ≤ fuel)
    (hpages : ∀ i, 1 ≤ i → i < P → att i 50 1 = .success (.arr (items i)) ∧ items i ≠ [])
    (hterm : fetchPageSteps (pageFetch att) P [50, 25, 10, 5] = .ok (some [])) :
    fetchExoProductsList (pageFetch att) fuel
      = .ok ((List.range (P - 1)).flatMap fun j => items (j + 1)) := by
  have hup1 : ∀ i, 1 ≤ i → i < P → pageFetch att i 50 = .ok (.arr (items i)) := by
    intro i h1 h2
    show (fetchWithRetry (att i 50) (5 + 1) 2000).1 = _
    rw [fetchWithRetry_first, (hpages i h1 h2).1]
  have hsteps : ∀ i, 1 ≤ i → i < P →
      fetchPageSteps (pageFetch att) i [50, 25, 10, 5] = .ok (some (items i)) := by
    intro i h1 h2
    simp [fetchPageSteps, hup1 i h1 h2]
  have hrun := fetchAllPagesGo_run (pageFetch att) items (P - 1) 1 fuel [] (by omega)
    (fun j hj => ⟨hsteps (1 + j) (by omega) (by omega), (hpages (1 + j) (by omega) (by omega)).2⟩)
    (Or.inl (by rwa [show 1 + (P - 1) = P from by omega]))
  unfold fetchExoProductsList
  rw [hrun]
  have hfe : (fun j => items (1 + j)) = fun j => items (j + 1) :=
    funext fun j => by rw [Nat.add_comm]
  rw [hfe]
  simp

/-- Claim C4 (amended): when the upstream answers pages 1..N-1 with nonempty
raw arrays on the first attempt at the leading page size, and answers page N
(N greater than 1) with HTTP 404, the paginated fetch terminates normally —
the 404 having been converted by fetchWithRetry into the end-of-pages marker
rather than thrown — and returns exactly the concatenation of the items of
pages 1..N-1 in order. The nonemptiness proviso is forced by the code: an
empty successful page already stops the loop before page N is reached. -/
theorem pagination_404_end (att : ℕ → ℕ → ℕ → Attempt (ListBody α)) (N : ℕ)
    (items : ℕ → List α) (fuel : ℕ)
    (hN : 1 < N) (hfuel : N ≤ fuel)
    (hpages : ∀ i, 1 ≤ i → i < N → att i 50 1 = .success (.arr (items i)) ∧ items i ≠ [])
    (h404 : att N 50 1 = .failure (.http 404)) :
    fetchExoProductsList (pageFetch att) fuel
      = .ok ((List.range (N - 1)).flatMap fun j => items (j + 1)) := by
  apply pagination_terminates_at att N items fuel (by omega) hfuel hpages
  have hN50 : pageFetch att N 50 = .endMarker := by
    show (fetchWithRetry (att N 50) (5 + 1) 2000).1 = _
    rw [fetchWithRetry_first, h404]
    rfl
  simp [fetchPageSteps, hN50]

/-- Counterexample to claim C4 as frozen: pages 1..N-1 all succeed (page 1
with zero items, page 2 with item 7) and page N = 3 returns 404, yet the
fetch returns no items rather than the concatenation of pages 1 and 2 — the
empty page 1 already ended the loop. -/
theorem pagination_404_empty_page_counterexample :
    fetchExoProductsList (pageFetch (fun p _ _ =>
        if p = 1 then .success (.arr ([] : List ℕ))
        else if p = 2 then .success (.arr [7])
        else .failure (.http 404))) 9
      = .ok [] ∧
    fetchExoProductsList (pageFetch (fun p _ _ =>
        if p = 1 then .success (.arr ([] : List ℕ))
        else if p = 2 then .success (.arr [7])
        else .failure (.http 404))) 9
      ≠ .ok [7] := by
  decide

/-- Concrete instance of pagination_404_end: pages 1 and 2 carry items 1, 2
and 3, page 3 answers 404, and the fetch returns all three items with no
error. -/
theorem pagination_404_end_witness :
    fetchExoProductsList (pageFetch (fun p _ _ =>
        if p = 1 then .success (.arr [1, 2])
        else if p = 2 then .success (.arr [3])
        else .failure (.http 404))) 9
      = .ok [1, 2, 3] := by
  have h := pagination_404_end (fun p _ _ =>
      if p = 1 then .success (.arr [1, 2])
      else if p = 2 then .success (.arr [3])
      else .failure (.http 404)) 3
      (fun i => if i = 1 then [1, 2] else if i = 2 then [3] else []) 9
      (by norm_num) (by norm_num)
      (fun i h1 h2 => by
        interval_cases i
        · exact ⟨by decide, by decide⟩
        · exact ⟨by decide, by decide⟩)
      (by decide)
  rw [h]
  decide

/-- Claim C7 (amended): a page whose body is neither a raw array nor an
items-wrapped object is logged and contributes zero items, and — because the
outer loop breaks on any zero-item page — this also terminates pagination:
with pages 1..P-1 nonempty and page P malformed, the fetch returns exactly
the items of pages 1..P-1 and never fetches past page P, whatever later
pages would have returned. -/
theorem malformed_page_spec (att : ℕ → ℕ → ℕ → Attempt (ListBody α)) (P : ℕ)
    (items : ℕ → List α) (fuel : ℕ)
    (hP : 1 ≤ P) (hfuel : P ≤ fuel)
    (hpages : ∀ i, 1 ≤ i → i < P → att i 50 1 = .success (.arr (items i)) ∧ items i ≠ [])
    (hmal : att P 50 1 = .success .malformed) :
    fetchExoProductsList (pageFetch att) fuel
      = .ok ((List.range (P - 1)).flatMap fun j => items (j + 1)) := by
  apply pagination_terminates_at att P items fuel hP hfuel hpages
  have hP50 : pageFetch att P 50 = .ok .malformed := by
    show (fetchWithRetry (att P 50) (5 + 1) 2000).1 = _
    rw [fetchWithRetry_first, hmal]
  simp [fetchPageSteps, hP50]

/-- Counterexample to claim C7 as frozen: page 1 has an unrecognized shape
and page 2 would return item 7, yet the fetch stops at page 1 with zero
items — the malformed page is treated as end-of-pagination rather than
being skipped. -/
theorem malformed_page_counterexample :
    fetchExoProductsList (pageFetch (fun p _ _ =>
        if p = 1 then .success .malformed
        else .success (.arr [7]))) 9
      = .ok ([] : List ℕ) ∧
    fetchExoProductsList (pageFetch (fun p _ _ =>
        if p = 1 then .success .malformed
        else .success (.arr [7]))) 9
      ≠ .ok [7] := by
  decide

/-- Concrete instance of malformed_page_spec: page 1 carries item 4, page 2
is malformed, and the fetch returns just item 4. -/
theorem malformed_page_spec_witness :
    fetchExoProductsList (pageFetch (fun p _ _ =>
        if p = 1 then .success (.arr [4])
        else .success .malformed)) 9
      = .ok [4] := by
  have h := malformed_page_spec (fun p _ _ =>
      if p = 1 then .success (.arr [4])
      else .success .malformed) 2
      (fun i => if i = 1 then [4] else []) 9
      (by norm_num) (by norm_num)
      (fun i h1 h2 => by
        interval_cases i
        exact ⟨by decide, by decide⟩)
      (by decide)
  rw [h]
  decide

/-! ## JavaScript value and number-rendering model for the extraction
engine (src/index.js lines 88-173) -/

/-- A primitive JavaScript value as the extraction code meets it: a string
or a number. -/
inductive JPrim
  | str (s : String)
  | num (q : ℚ)
  deriving Repr, DecidableEq

/-- Decimal digits of a natural number, most significant first, with a fuel
bound on the recursion. -/
def natDigits : ℕ → ℕ → List Char
  | 0, _ => []
  | fuel + 1, n =>
    if n < 10 then [Char.ofNat (48 + n)]
    else natDigits fuel (n / 10) ++ [Char.ofNat (48 + n % 10)]

/-- Decimal digits of the fractional part of a rational in [0, 1), with a
fuel bound: JavaScript prints a finite shortest representation, and every
value the claims touch is an exact short decimal, so the rendering below is
exact for them. -/
def fracDigits : ℚ → ℕ → List Char
  | _, 0 => []
  | q, fuel + 1 =>
    if q = 0 then []
    else
      let q10 := q * 10
      Char.ofNat (48 + (⌊q10⌋).toNat) :: fracDigits (q10 - ⌊q10⌋) fuel

/-- Rendering of a rational the way JavaScript renders the corresponding
number: sign, integer part, and a dot plus fraction digits when the
fractional part is nonzero. -/
def numToString (q : ℚ) : String :=
  let sign := if q < 0 then "-" else ""
  let a := |q|
  let ip := String.mk (natDigits 20 (⌊a⌋).toNat)
  let fr := fracDigits (a - ⌊a⌋) 30
  sign ++ ip ++ (if fr.isEmpty then "" else "." ++ String.mk fr)

/-- String(v) for a primitive. -/
def jprimToString : JPrim → String
  | .str s => s
  | .num q => numToString q

/-! ## parseMeasure (src/index.js lines 164-172) -/

/-- ASCII whitespace for the String.trim model. -/
def isWsChar (c : Char) : Bool := c = ' ' || c = '\t' || c = '\n' || c = '\r'

/-- The String.trim of JavaScript: strip whitespace from both ends. -/
def trimChars (cs : List Char) : List Char :=
  ((cs.dropWhile isWsChar).reverse.dropWhile isWsChar).reverse

/-- The s.replace of parseMeasure: every comma becomes a dot. -/
def commaToDot (c : Char) : Char := if c = ',' then '.' else c

/-- Body of the anchored regex match after the optional minus sign has been
consumed: one or more digits, optionally a dot followed by one or more
digits (greedy). Returns the matched token and the remainder after it. -/
def matchNumBody (neg : Bool) (rest : List Char) : Option (List Char × List Char) :=
  let ds := rest.takeWhile Char.isDigit
  let rest2 := rest.dropWhile Char.isDigit
  if ds.isEmpty then none
  else
    let sign := if neg then ['-'] else []
    match rest2 with
    | '.' :: t =>
      let fs := t.takeWhile Char.isDigit
      if fs.isEmpty then some (sign ++ ds, rest2)
      else some (sign ++ ds ++ '.' :: fs, t.dropWhile Char.isDigit)
    | _ => some (sign ++ ds, rest2)

/-- Match of the regex -?\d+(\.\d+)? anchored at the head of the character
list. -/
def matchNumAt (cs : List Char) : Option (List Char × List Char) :=
  match cs with
  | '-' :: t => matchNumBody true t
  | _ => matchNumBody false cs

/-- Leftmost match of the number regex: positions are tried left to
right, as the regex engine does. -/
def firstNumToken : List Char → Option (List Char × List Char)
  | [] => none
  | c :: t =>
    match matchNumAt (c :: t) with
    | some m => some m
    | none => firstNumToken t

/-- Value of a digit run. -/
def digitsToNat (ds : List Char) : ℕ :=
  ds.foldl (fun acc c => 10 * acc + (c.toNat - 48)) 0

/-- parseFloat on an unsigned matched token (digits, optionally dot and more
digits), exact over ℚ. -/
def unsignedTokenToRat (t : List Char) : ℚ :=
  let ipart := t.takeWhile Char.isDigit
  let rest := t.dropWhile Char.isDigit
  match rest with
  | '.' :: fs => (digitsToNat ipart : ℚ) + (digitsToNat fs : ℚ) / ((10 : ℚ) ^ fs.length)
  | _ => (digitsToNat ipart : ℚ)

/-- parseFloat on a matched token, sign included. On a token produced by the
matcher this never yields NaN, so the Number.isNaN fallback of the source is
unreachable and the value is returned directly. -/
def tokenToRat (tok : List Char) : ℚ :=
  match tok with
  | '-' :: t => -(unsignedTokenToRat t)
  | t => unsignedTokenToRat t

/-- Embedding of parseMeasure (src/index.js lines 164-172) on a string:
trim, turn every comma into a dot, take the leftmost signed decimal token
and parseFloat it; null when no token matches. -/
def parseMeasure (s : String) : Option ℚ :=
  (firstNumToken ((trimChars s.toList).map commaToDot)).map fun m => tokenToRat m.1

/-- parseMeasure on a value that may be absent (the val == null early
return) or a primitive (String(val) conversion). -/
def parseMeasureVal : Option JPrim → Option ℚ
  | none => none
  | some p => parseMeasure (jprimToString p)

/-- The size template of src/index.js line 278: the string interpolation of
length, a literal " x ", and width, under JavaScript number printing. -/
def sizeTemplate (length width : ℚ) : String :=
  numToString length ++ " x " ++ numToString width

/-! ## Helper lemmas for parseMeasure and number rendering -/

theorem fracDigits_zero (fuel : ℕ) : fracDigits 0 fuel = [] := by
  cases fuel <;> simp [fracDigits]

theorem fracDigits_step (q : ℚ) (fuel : ℕ) (hq : ¬q = 0) :
    fracDigits q (fuel + 1)
      = Char.ofNat (48 + (⌊q * 10⌋).toNat) :: fracDigits (q * 10 - ⌊q * 10⌋) fuel := by
  rw [fracDigits, if_neg hq]

theorem numToString_12_5 : numToString (12/5 : ℚ) = "2.4" := by
  simp only [numToString]
  rw [if_neg (by norm_num : ¬(12/5 : ℚ) < 0)]
  rw [show |(12/5 : ℚ)| = 12/5 from abs_of_nonneg (by norm_num)]
  rw [show ⌊(12/5 : ℚ)⌋ = 2 from by norm_num [Int.floor_eq_iff]]
  rw [show (12/5 : ℚ) - ((2 : ℤ) : ℚ) = 2/5 from by norm_num]
  rw [show (30 : ℕ) = 29 + 1 from rfl, fracDigits_step _ _ (by norm_num)]
  rw [show ((2/5 : ℚ) * 10) = 4 from by norm_num]
  rw [show ⌊(4 : ℚ)⌋ = 4 from by norm_num [Int.floor_eq_iff]]
  rw [show (4 : ℚ) - ((4 : ℤ) : ℚ) = 0 from by norm_num, fracDigits_zero]
  rfl

theorem numToString_17_10 : numToString (17/10 : ℚ) = "1.7" := by
  simp only [numToString]
  rw [if_neg (by norm_num : ¬(17/10 : ℚ) < 0)]
  rw [show |(17/10 : ℚ)| = 17/10 from abs_of_nonneg (by norm_num)]
  rw [show ⌊(17/10 : ℚ)⌋ = 1 from by norm_num [Int.floor_eq_iff]]
  rw [show (17/10 : ℚ) - ((1 : ℤ) : ℚ) = 7/10 from by norm_num]
  rw [show (30 : ℕ) = 29 + 1 from rfl, fracDigits_step _ _ (by norm_num)]
  rw [show ((7/10 : ℚ) * 10) = 7 from by norm_num]
  rw [show ⌊(7 : ℚ)⌋ = 7 from by norm_num [Int.floor_eq_iff]]
  rw [show (7 : ℚ) - ((7 : ℤ) : ℚ) = 0 from by norm_num, fracDigits_zero]
  rfl

theorem numToString_zero : numToString 0 = "0" := by
  simp only [numToString]
  rw [if_neg (by norm_num : ¬(0 : ℚ) < 0), abs_zero]
  rw [show ⌊(0 : ℚ)⌋ = 0 from by norm_num]
  rw [show (0 : ℚ) - ((0 : ℤ) : ℚ) = 0 from by norm_num, fracDigits_zero]
  rfl

theorem isWs_commaToDot (c : Char) : isWsChar (commaToDot c) = isWsChar c := by
  unfold commaToDot
  split
  · next h => subst h; decide
  · rfl

theorem isDigit_commaToDot (c : Char) : (commaToDot c).isDigit = c.isDigit := by
  unfold commaToDot
  split
  · next h => subst h; decide
  · rfl

theorem commaToDot_comp : commaToDot ∘ commaToDot = commaToDot := by
  funext c
  show commaToDot (commaToDot c) = commaToDot c
  unfold commaToDot
  split
  · next h => subst h; decide
  · rfl

theorem trimChars_map_commaToDot (cs : List Char) :
    trimChars (cs.map commaToDot) = (trimChars cs).map commaToDot := by
  have hws : (isWsChar ∘ commaToDot) = isWsChar := funext isWs_commaToDot
  unfold trimChars
  rw [List.dropWhile_map, hws, ← List.map_reverse, List.dropWhile_map, hws, ← List.map_reverse]

theorem mem_of_mem_trimChars (cs : List Char) (y : Char) (h : y ∈ trimChars cs) : y ∈ cs := by
  unfold trimChars at h
  rw [List.mem_reverse] at h
  have h1 := (List.dropWhile_sublist _).subset h
  rw [List.mem_reverse] at h1
  exact (List.dropWhile_sublist _).subset h1

theorem takeWhile_nil_of (p : Char → Bool) :
    ∀ l : List Char, (∀ x ∈ l, p x = false) → l.takeWhile p = []
  | [], _ => rfl
  | c :: t, h => by simp [List.takeWhile_cons, h c (by simp)]

theorem matchNumBody_none (neg : Bool) (rest : List Char)
    (h : ∀ x ∈ rest, x.isDigit = false) : matchNumBody neg rest = none := by
  unfold matchNumBody
  rw [takeWhile_nil_of _ rest h]
  simp

theorem matchNumAt_none (cs : List Char) (h : ∀ x ∈ cs, x.isDigit = false) :
    matchNumAt cs = none := by
  unfold matchNumAt
  split
  · next t => exact matchNumBody_none true t (fun x hx => h x (by simp [hx]))
  · next => exact matchNumBody_none false cs h

theorem firstNumToken_none :
    ∀ cs : List Char, (∀ x ∈ cs, x.isDigit = false) → firstNumToken cs = none := by
  intro cs
  induction cs with
  | nil => intro _; rfl
  | cons c t ih =>
    intro h
    rw [firstNumToken, matchNumAt_none (c :: t) h]
    exact ih (fun x hx => h x (by simp [hx]))

/-- Claim C8: parseMeasure treats commas as decimal points (rewriting every
comma of the input to a dot first changes nothing), returns null when the
input has no digit at all (hence no numeric token), and extracts the first
signed decimal token as a number: on "2,40" it yields exactly 2.4, and the
derived size string for length 2.4 and width 1.7 is exactly "2.4 x 1.7".
As a Lean function the embedding is pure by construction, matching the
spec's purity claim. -/
theorem parseMeasure_spec :
    (∀ s : String, parseMeasure (String.mk (s.toList.map commaToDot)) = parseMeasure s) ∧
    (∀ s : String, (∀ c ∈ s.toList, c.isDigit = false) → parseMeasure s = none) ∧
    parseMeasure "2,40" = some (12/5) ∧
    sizeTemplate (12/5) (17/10) = "2.4 x 1.7" := by
  refine ⟨?_, ?_, ?_, ?_⟩
  · intro s
    have ht : (String.mk (s.toList.map commaToDot)).toList = s.toList.map commaToDot := rfl
    unfold parseMeasure
    rw [ht, trimChars_map_commaToDot, List.map_map, commaToDot_comp]
  · intro s h
    unfold parseMeasure
    rw [firstNumToken_none]
    · rfl
    · intro x hx
      obtain ⟨y, hy, rfl⟩ := List.mem_map.mp hx
      rw [isDigit_commaToDot]
      exact h y (mem_of_mem_trimChars _ y hy)
  · have h : parseMeasure "2,40" = some (tokenToRat ['2', '.', '4', '0']) := rfl
    rw [h]
    rw [show tokenToRat ['2', '.', '4', '0']
      = (digitsToNat ['2'] : ℚ) + (digitsToNat ['4', '0'] : ℚ) / (10 : ℚ) ^ 2 from rfl]
    rw [show digitsToNat ['2'] = 2 from rfl, show digitsToNat ['4', '0'] = 40 from rfl]
    norm_num
  · rw [sizeTemplate, numToString_12_5, numToString_17_10]
    rfl

/-- Concrete instance of parseMeasure_spec: a digit-free string parses to
null, and "2,40" parses to 2.4. -/
theorem parseMeasure_spec_witness :
    parseMeasure "no digits here" = none ∧ parseMeasure "2,40" = some (12/5) :=
  ⟨parseMeasure_spec.2.1 "no digits here" (by decide), parseMeasure_spec.2.2.1⟩

/-! ## Extra-field extraction engine (src/index.js lines 88-161) -/

/-- The value property of an extra field may itself be an object with
nested value or text properties (the .value.value and .value.text shapes
extractValue probes), or a primitive. -/
inductive JInner
  | prim (p : JPrim)
  | obj (value : Option JPrim) (text : Option JPrim)
  deriving Repr, DecidableEq

/-- One upstream extra field: the label properties findExtraField probes and
the value properties extractValue unwraps, each possibly absent. -/
structure ExtraField where
  name : Option String := none
  label : Option String := none
  caption : Option String := none
  description : Option String := none
  displayname : Option String := none
  displayName : Option String := none
  fieldname : Option String := none
  fieldName : Option String := none
  key : Option String := none
  value : Option JInner := none
  text : Option JPrim := none
  val : Option JPrim := none
  displayValue : Option JPrim := none
  display : Option JPrim := none
  data : Option JPrim := none
  deriving Repr, DecidableEq

/-- The skip test of getFirstDefined (src/index.js lines 95-100): a defined
candidate is rejected when String(v).trim() is empty, which for a primitive
means a blank string (a number never renders blank). -/
def jprimBlank : JPrim → Bool
  | .str s => (trimChars s.toList).isEmpty
  | .num _ => false

/-- getFirstDefined over an ordered candidate list: the first present,
non-blank candidate. -/
def getFirstDefined : List (Option JPrim) → Option JPrim
  | [] => none
  | none :: rest => getFirstDefined rest
  | some p :: rest => if jprimBlank p then getFirstDefined rest else some p

/-- Embedding of extractValue (src/index.js lines 103-117) on a field
object: candidates in order are value.value, value.text, value.toString(),
value raw, text, val, displayValue, display, data. A primitive value's
toString() renders it as a string; an object value's toString() is the
non-blank "[object Object]", so the raw-value branch is only reachable for
primitives, where it repeats the toString candidate and is therefore
modelled by it. -/
def extractValue (f : ExtraField) : Option JPrim :=
  getFirstDefined
    [ (match f.value with | some (.obj v _) => v | _ => none),
      (match f.value with | some (.obj _ t) => t | _ => none),
      (match f.value with
        | some (.prim p) => some (.str (jprimToString p))
        | some (.obj _ _) => some (.str "[object Object]")
        | none => none),
      (match f.value with | some (.prim p) => some p | _ => none),
      f.text, f.val, f.displayValue, f.display, f.data ]

/-- The extra-field collection candidates of getExtraFields (src/index.js
lines 120-132); each property is an array or absent. -/
structure ExtrasBag where
  extrafields : Option (List ExtraField) := none
  extraFields : Option (List ExtraField) := none
  extrafieldvalues : Option (List ExtraField) := none
  userfields : Option (List ExtraField) := none
  userFields : Option (List ExtraField) := none
  deriving Repr, DecidableEq

/-- First candidate that is a non-empty array. -/
def firstNonemptyArr : List (Option (List ExtraField)) → Option (List ExtraField)
  | [] => none
  | some (x :: xs) :: _ => some (x :: xs)
  | _ :: rest => firstNonemptyArr rest

/-- Embedding of getExtraFields: the first key holding a non-empty array
wins; the fallback returns extrafields when it is an array (even empty) and
the empty list otherwise. -/
def getExtraFields (d : ExtrasBag) : List ExtraField :=
  match firstNonemptyArr
      [d.extrafields, d.extraFields, d.extrafieldvalues, d.userfields, d.userFields] with
  | some l => l
  | none => d.extrafields.getD []

/-- Lower-case ASCII letter or digit, the characters normalizeKey keeps. -/
def isLowerAlnum (c : Char) : Bool := ('a' ≤ c && c ≤ 'z') || ('0' ≤ c && c ≤ '9')

/-- Embedding of normalizeKey (src/index.js lines 89-93): lower-case, then
strip everything that is not a lower-case letter or digit. -/
def normalizeKey (s : String) : String :=
  String.mk ((s.toList.map Char.toLower).filter isLowerAlnum)

/-- The label candidates probed in the exact phase of findExtraField. -/
def nameCandidatesExact (f : ExtraField) : List (Option String) :=
  [f.name, f.label, f.caption, f.description, f.displayname, f.displayName,
   f.fieldname, f.fieldName, f.key]

/-- The label candidates probed in the fuzzy phase of findExtraField. -/
def nameCandidatesFuzzy (f : ExtraField) : List (Option String) :=
  [f.name, f.label, f.caption, f.description, f.displayname, f.displayName]

/-- The exact phase test: some truthy candidate whose normalized form is in
the normalized alias set. -/
def matchesExact (aliases : List String) (f : ExtraField) : Bool :=
  (nameCandidatesExact f).any fun cand =>
    match cand with
    | none => false
    | some c => c != "" && (aliases.map normalizeKey).contains (normalizeKey c)

/-- Whether the needle occurs as a contiguous substring of the haystack
(String.prototype.includes). -/
def containsSub (needle : List Char) : List Char → Bool
  | [] => needle.isEmpty
  | c :: t => needle.isPrefixOf (c :: t) || containsSub needle t

/-- Array.prototype.join with a single space. -/
def joinSpace : List String → String
  | [] => ""
  | [s] => s
  | s :: rest => s ++ " " ++ joinSpace rest

/-- The fuzzy phase test: the truthy fuzzy candidates joined with spaces and
lower-cased contain some lower-cased alias as a substring. -/
def matchesFuzzy (aliases : List String) (f : ExtraField) : Bool :=
  let joined := String.mk
    ((joinSpace (((nameCandidatesFuzzy f).filterMap id).filter (fun s => s != ""))).toList.map
      Char.toLower)
  if joined = "" then false
  else aliases.any fun a => containsSub (a.toList.map Char.toLower) joined.toList

/-- Embedding of findExtraField (src/index.js lines 138-161): empty extras
give nothing; otherwise the first field matching the exact phase, else the
first field matching the fuzzy phase. -/
def findExtraField (extras : List ExtraField) (aliases : List String) : Option ExtraField :=
  if extras.isEmpty then none
  else
    match extras.find? (matchesExact aliases) with
    | some f => some f
    | none => extras.find? (matchesFuzzy aliases)

/-! ## Per-record sync derivations (src/index.js lines 222-323) -/

/-- A JavaScript number field as Number() sees it: a numeric value or NaN
(standing for any value whose conversion fails). -/
inductive JNum
  | num (q : ℚ)
  | nan
  deriving Repr, DecidableEq

/-- String(v) for a number-or-NaN. -/
def jnumToString : JNum → String
  | .num q => numToString q
  | .nan => "NaN"

structure SalePrice where
  price : Option JNum := none
  deriving Repr, DecidableEq

/-- The slice of an EXO stockitem details body that syncProducts reads.
Every property is optional, mirroring access on a loosely shaped JSON
object. lengthCap and widthCap stand for the capitalised Length and Width
properties; dimLength and dimWidth for dimensions.length and
dimensions.width. -/
structure Details where
  id : Option JPrim := none
  barcode1 : Option String := none
  description : Option String := none
  notes : Option String := none
  extras : ExtrasBag := {}
  length : Option JPrim := none
  lengthCap : Option JPrim := none
  width : Option JPrim := none
  widthCap : Option JPrim := none
  dimLength : Option JPrim := none
  dimWidth : Option JPrim := none
  saleprices : Option (List SalePrice) := none
  latestcost : Option JNum := none
  totalinstock : Option JNum := none
  deriving Repr, DecidableEq

/-- The a ?? b ?? c chain on possibly-absent primitives. -/
def coalesce3 (a b c : Option JPrim) : Option JPrim :=
  match a with
  | some v => some v
  | none =>
    match b with
    | some v => some v
    | none => c

/-- Embedding of the rawPrice derivation (src/index.js line 306):
saleprices[0].price ?? latestcost ?? 0. -/
def rawPriceOf (d : Details) : JNum :=
  match (match d.saleprices with
         | some (sp :: _) => sp.price
         | _ => none) with
  | some v => v
  | none =>
    match d.latestcost with
    | some v => v
    | none => .num 0

/-- Embedding of the stockLevel derivation (src/index.js line 309):
Number(totalinstock ?? 0) || 0. A missing field gives Number(0) = 0; a NaN
conversion gives 0 through the || fallback; a numeric value is kept as-is
(0 itself is falsy, and the || still yields 0). -/
def stockLevelOf (totalinstock : Option JNum) : ℚ :=
  match totalinstock with
  | none => 0
  | some .nan => 0
  | some (.num q) => if q = 0 then 0 else q

/-- String(details.id ?? briefId), the stored natural key (src/index.js
line 303). -/
def stockCodeOf (d : Details) (briefId : String) : String :=
  match d.id with
  | some v => jprimToString v
  | none => briefId

/-- The a || b idiom on two strings. -/
def jsOrStr (a b : String) : String := if a = "" then b else a

/-- String(extractValue(field) ?? '') for a possibly-missing field. -/
def extractedString (f : Option ExtraField) : String :=
  match f with
  | none => ""
  | some fld =>
    match extractValue fld with
    | none => ""
    | some p => jprimToString p

/-- JavaScript truthiness of a possibly-null number: present and nonzero. -/
def truthyQ : Option ℚ → Bool
  | none => false
  | some q => if q = 0 then false else true

/-- All matches of the number regex in order (the global match of
src/index.js line 283), with fuel bounding the scan. -/
def allNumTokens : ℕ → List Char → List (List Char)
  | 0, _ => []
  | fuel + 1, cs =>
    match firstNumToken cs with
    | none => []
    | some (m, rest) => m :: allNumTokens fuel rest

/-- Embedding of the size derivation block (src/index.js lines 275-294):
when both measures are truthy the template applies; otherwise a size-like
extra field is parsed, its first two numeric tokens fill whichever measure
is still null (parseFloat of a matched token is never NaN), and the
template applies when both are now truthy; a size text without two numeric
tokens is kept verbatim; no size field leaves the empty string. Returns the
possibly updated length and width and the size string. -/
def deriveSize (extras : List ExtraField) (length width : Option ℚ) :
    Option ℚ × Option ℚ × String :=
  if truthyQ length && truthyQ width then
    (length, width, sizeTemplate (length.getD 0) (width.getD 0))
  else
    let sizeField := findExtraField extras ["size", "dimensions", "size(cm)", "overall size",
      "rug size"]
    let sizeRaw := extractedString sizeField
    if sizeRaw = "" then (length, width, "")
    else
      let csd := sizeRaw.toList.map commaToDot
      match allNumTokens (csd.length + 1) csd with
      | n0 :: n1 :: _ =>
        let a := tokenToRat n0
        let b := tokenToRat n1
        let length2 := match length with | none => some a | some v => some v
        let width2 := match width with | none => some b | some v => some v
        if truthyQ length2 && truthyQ width2 then
          (length2, width2, sizeTemplate (length2.getD 0) (width2.getD 0))
        else (length2, width2, "")
      | _ => (length, width, sizeRaw)

/-- The stored product row one syncProducts iteration upserts. -/
structure ProductRow where
  stockCode : String
  name : String
  description : String
  sku : String
  price : String
  origin : String
  length : Option ℚ
  width : Option ℚ
  size : String
  stockLevel : ℚ
  deriving Repr, DecidableEq

/-- The per-record derivation of syncProducts (src/index.js lines 253-316):
origin, length, width, size from the extraction engine, sku and stockCode
from barcode and identifier, the decimal-safe price string, the
Untitled-defaulted name, and the stock level. -/
def rowOf (briefId : String) (d : Details) : ProductRow :=
  let extras := getExtraFields d.extras
  let originField := findExtraField extras ["origin", "countryoforigin", "country", "madein",
    "made"]
  let origin := String.mk (trimChars (extractedString originField).toList)
  let lengthField := findExtraField extras ["length", "lengthcm", "length(mm)", "length(cm)",
    "length(m)", "ruglength", "size length"]
  let widthField := findExtraField extras ["width", "widthcm", "width(mm)", "width(cm)",
    "width(m)", "rugwidth", "size width"]
  let length0 := match lengthField with
    | some f => parseMeasureVal (extractValue f)
    | none => none
  let width0 := match widthField with
    | some f => parseMeasureVal (extractValue f)
    | none => none
  let length1 := match length0 with
    | some v => some v
    | none => parseMeasureVal (coalesce3 d.length d.lengthCap d.dimLength)
  let width1 := match width0 with
    | some v => some v
    | none => parseMeasureVal (coalesce3 d.width d.widthCap d.dimWidth)
  let lws := deriveSize extras length1 width1
  let webDescField := findExtraField extras ["webdescription", "web description",
    "online description"]
  let webdescription := jsOrStr (extractedString webDescField) (jsOr d.notes "")
  { stockCode := stockCodeOf d briefId,
    name := jsOr d.description "Untitled",
    description := webdescription,
    sku := jsOr d.barcode1 (stockCodeOf d briefId),
    price := jnumToString (rawPriceOf d),
    origin := origin,
    length := lws.1,
    width := lws.2.1,
    size := lws.2.2,
    stockLevel := stockLevelOf d.totalinstock }

/-- Body of a per-item details response: a JSON object (modelled by the
Details slice) or a non-object value. -/
inductive DetailsBody
  | obj (d : Details)
  | nonObj
  deriving Repr, DecidableEq

inductive DetailErr
  | fetchFailed (e : FetchErr)
  | badShape
  deriving Repr, DecidableEq

/-- The details record the end marker object stands for: an object with
none of the expected properties. -/
def endDetails : Details := {}

/-- Embedding of fetchExoProductDetails (src/index.js lines 222-231) on a
fetchWithRetry outcome: a falsy or non-object body raises; any object is
returned as-is — the 404 end marker object passes the typeof check and
comes back as a record with no expected properties. -/
def fetchExoProductDetails (r : FetchResult DetailsBody) : Except DetailErr Details :=
  match r with
  | .ok (.obj d) => .ok d
  | .ok .nonObj => .error .badShape
  | .endMarker => .ok endDetails
  | .thrown e => .error (.fetchFailed e)
  | .undef => .error .badShape

/-- One iteration of the syncProducts loop for a brief record whose
identifier resolved to briefId (src/index.js lines 248-322): fetch the
details with the default retry bounds, derive the row and upsert it; an
error is caught, logged, and the record is not counted. Returns the row
counted as saved, or none when the iteration caught an error. -/
def syncRecord (att : ℕ → Attempt DetailsBody) (briefId : String) : Option ProductRow :=
  match fetchExoProductDetails (fetchWithRetry att 6 2000).1 with
  | .ok d => some (rowOf briefId d)
  | .error _ => none

/-- Claim C9 (amended): the derived stockLevel is 0 whenever totalinstock is
missing or not a valid number; when it is a valid number it is stored
unchanged — the code applies no clamp or truncation, so the stored value
need not be a non-negative integer. -/
theorem stockLevel_spec (v : Option JNum) :
    (v = none → stockLevelOf v = 0) ∧
    (v = some .nan → stockLevelOf v = 0) ∧
    (∀ q : ℚ, v = some (.num q) → stockLevelOf v = q) := by
  refine ⟨?_, ?_, ?_⟩
  · intro h
    subst h
    rfl
  · intro h
    subst h
    rfl
  · intro q h
    subst h
    by_cases hq : q = 0
    · subst hq
      simp [stockLevelOf]
    · simp [stockLevelOf, hq]

/-- Counterexample to claim C9 as stated: an upstream totalinstock of -5 is
stored as stockLevel -5, which is negative — the derivation does not force
a non-negative value. -/
theorem stockLevel_negative_counterexample :
    stockLevelOf (some (.num (-5))) = -5 ∧ ¬(0 ≤ stockLevelOf (some (.num (-5)))) := by
  constructor
  · norm_num [stockLevelOf]
  · norm_num [stockLevelOf]

/-- Concrete instance of stockLevel_spec: missing and NaN both give 0, and
a plain 7 is stored as 7. -/
theorem stockLevel_spec_witness :
    stockLevelOf none = 0 ∧ stockLevelOf (some .nan) = 0 ∧
      stockLevelOf (some (.num 7)) = 7 :=
  ⟨(stockLevel_spec none).1 rfl, (stockLevel_spec (some .nan)).2.1 rfl,
   (stockLevel_spec (some (.num 7))).2.2 7 rfl⟩

/-- Claim C10: fetchWithRetry converts a 404 into the end marker for every
URL, the per-item detail endpoint included; the marker object passes the
object-shape check of fetchExoProductDetails and comes back as a record
with no expected properties; the sync iteration then derives and counts a
placeholder row for the identifier: name "Untitled", price "0", stockLevel
0, with the identifier as stockCode and sku. -/
theorem detail_404_placeholder (att : ℕ → Attempt DetailsBody) (briefId : String)
    (h404 : att 1 = .failure (.http 404)) :
    fetchWithRetry att 6 2000 = (.endMarker, []) ∧
    fetchExoProductDetails (fetchWithRetry att 6 2000).1 = .ok endDetails ∧
    syncRecord att briefId
      = some { stockCode := briefId, name := "Untitled", description := "", sku := briefId,
               price := "0", origin := "", length := none, width := none, size := "",
               stockLevel := 0 } := by
  have h1 : fetchWithRetry att 6 2000 = (.endMarker, []) := by
    show fetchWithRetry att (5 + 1) 2000 = _
    rw [fetchWithRetry_first, h404]
    rfl
  have hrow : rowOf briefId endDetails
      = { stockCode := briefId, name := "Untitled", description := "", sku := briefId,
          price := numToString 0, origin := "", length := none, width := none, size := "",
          stockLevel := 0 } := rfl
  refine ⟨h1, ?_, ?_⟩
  · rw [h1]
    rfl
  · unfold syncRecord
    rw [h1]
    show some (rowOf briefId endDetails) = _
    rw [hrow, numToString_zero]

/-- Concrete instance of detail_404_placeholder: a detail endpoint that
answers 404 makes the sync iteration save an Untitled, price "0",
stock-0 placeholder for identifier ABC123. -/
theorem detail_404_placeholder_witness :
    syncRecord (fun _ => Attempt.failure (.http 404)) "ABC123"
      = some { stockCode := "ABC123", name := "Untitled", description := "", sku := "ABC123",
               price := "0", origin := "", length := none, width := none, size := "",
               stockLevel := 0 } :=
  (detail_404_placeholder (fun _ => Attempt.failure (.http 404)) "ABC123" rfl).2.2

/-! ## Sync-trigger concurrency guard (claim C2) -/

/-- Trigger-level state: the number of sync runs currently in flight. -/
structure SyncState where
  inFlight : ℕ
  deriving Repr, DecidableEq

/-- Trigger semantics of syncProducts in src/index.js (lines 234-329): the
function body contains no in-flight check of any kind — it proceeds
straight to the list fetch — so a trigger always begins a run. The Boolean
reports whether sync work was started. -/
def indexTrigger (s : SyncState) : SyncState × Bool :=
  ({ inFlight := s.inFlight + 1 }, true)

/-- Trigger semantics of the guarded syncProducts draft in
src/unnamed/part_001 (lines 67-72, the isSyncing flag): a trigger begins a
run only when none is in flight, and is otherwise a logged no-op. -/
def guardedTrigger (s : SyncState) : SyncState × Bool :=
  if s.inFlight = 0 then ({ inFlight := 1 }, true) else (s, false)

/-- Claim C2 evaluated on the code: a cron trigger immediately followed by a
manual trigger before the first run finishes. Under the current
src/index.js syncProducts the second trigger still performs sync work and
two runs end up in flight — the claimed no-op guarantee fails — while under
the guarded draft of part_001 the same second trigger is a no-op and a
single run stays in flight. -/
theorem sync_trigger_no_guard :
    ((indexTrigger (indexTrigger { inFlight := 0 }).1).2 = true ∧
      (indexTrigger (indexTrigger { inFlight := 0 }).1).1.inFlight = 2) ∧
    ((guardedTrigger (guardedTrigger { inFlight := 0 }).1).2 = false ∧
      (guardedTrigger (guardedTrigger { inFlight := 0 }).1).1.inFlight = 1) := by
  decide
